import Mathlib

/-!
Verification development for the Amass `dns` subcommand's concurrent DNS
resolution pipeline (src/cmd/amass/dns.go) and the WhoisXML data-source
plugin (src/services/sources/whoisxml.go), via a shallow embedding.

The per-request worker `processDNSRequest`, the record-type normalization in
`dnsArgs.OverrideConfig`, the consumer loop `processDNSAnswers`, the
cancellation structure of `performResolutions`, and the WhoisXML
`processRequests` loop and `getReverseWhoisURL` are translated into pure
Lean functions.  External collaborators (the resolver pool, the config)
appear as records of functions, so that theorems quantify over every
possible behaviour of those collaborators.
-/

/-- One DNS resource record, as in requests.DNSAnswer: a numeric record type
and the decoded record data. -/
structure DNSAnswer where
  rrtype : Nat
  data : String
deriving DecidableEq, Repr

/-- The fields of requests.DNSRequest that dns.go reads or writes:
the candidate name, its derived root domain, and the accumulated records. -/
structure DNSRequest where
  name : String
  domain : String
  records : List DNSAnswer
deriving DecidableEq, Repr

/-- Wildcard classification returned by the resolver pool
(resolvers.WildcardTypeNone / Static / Dynamic). -/
inductive WildcardType
  | none
  | static
  | dynamic
deriving DecidableEq, Repr

/-- The resolver-pool operations invoked by processDNSRequest
(sys.Pool() in dns.go), modelled as an arbitrary record of functions:
theorems quantify over every possible pool behaviour.  `resolve` maps a
name and a record type to either an answer list (err == nil in Go) or an
error. -/
structure Pool where
  subdomainToDomain : String → String
  getWildcardType : DNSRequest → WildcardType
  resolve : String → String → Except Unit (List DNSAnswer)
  matchesWildcard : DNSRequest → Bool

/-- The config.Config fields that the resolution pipeline reads. -/
structure Config where
  blacklisted : String → Bool
  recordTypes : List String
  providedNames : List String

/-- Everything observable about one call of processDNSRequest: the values
sent on the answer channel `c` (in order), the record types for which
Pool.Resolve was called (in order), and how many times the admission
semaphore was released. -/
structure ReqOutcome where
  sends : List (Option DNSRequest)
  resolveCalls : List String
  released : Nat
deriving DecidableEq, Repr

/-- The record-type query loop of processDNSRequest (dns.go:225-234):
for each configured type, call Resolve; append the answers only when no
error occurred; after handling type "CNAME", break out of the loop if the
accumulated answer list is non-empty.  Returns the accumulated answers and
the trace of record types actually resolved. -/
def queryLoop (pool : Pool) (name : String) :
    List String → List DNSAnswer → List String → List DNSAnswer × List String
  | [], answers, calls => (answers, calls)
  | t :: rest, answers, calls =>
    let answers2 := match pool.resolve name t with
      | Except.ok a => answers ++ a
      | Except.error _ => answers
    if t = "CNAME" ∧ answers2 ≠ [] then (answers2, calls ++ [t])
    else queryLoop pool name rest answers2 (calls ++ [t])

/-- Shallow embedding of processDNSRequest (dns.go:204-243).  The deferred
`cfg.SemMaxDNSQueries.Release(1)` runs on every return path, so `released`
is 1 in every branch.  Each branch sends exactly what the Go code sends on
channel `c`. -/
def processDNSRequest (pool : Pool) (cfg : Config) (req : Option DNSRequest) : ReqOutcome :=
  match req with
  | Option.none => { sends := [Option.none], resolveCalls := [], released := 1 }
  | Option.some r =>
    if r.name = "" then { sends := [Option.none], resolveCalls := [], released := 1 }
    else
      let d := pool.subdomainToDomain r.name
      let r1 : DNSRequest := { r with domain := d }
      if d = "" then { sends := [Option.none], resolveCalls := [], released := 1 }
      else if cfg.blacklisted r1.name ∨ pool.getWildcardType r1 = WildcardType.dynamic then
        { sends := [Option.none], resolveCalls := [], released := 1 }
      else
        let q := queryLoop pool r1.name cfg.recordTypes [] []
        let r2 : DNSRequest := { r1 with records := q.1 }
        if r2.records = [] ∨ pool.matchesWildcard r2 then
          { sends := [Option.none], resolveCalls := q.2, released := 1 }
        else
          { sends := [Option.some r2], resolveCalls := q.2, released := 1 }

/-- The per-name dispatch step of performResolutions (dns.go:195-196):
for every provided name, first `cfg.SemMaxDNSQueries.Acquire(1)` runs
(the first component counts these acquisitions), and then
processDNSRequest is spawned on `&requests.DNSRequest{Name: name}`. -/
def dispatchName (pool : Pool) (cfg : Config) (nm : String) : Nat × ReqOutcome :=
  (1, processDNSRequest pool cfg (Option.some { name := nm, domain := "", records := [] }))

/-- Character-wise uppercasing, modelling strings.ToUpper on the ASCII
record-type names the dns command deals in. -/
def toUpperStr (s : String) : String := String.mk (s.data.map Char.toUpper)

/-- One pass of the array loop in dnsArgs.OverrideConfig (dns.go:371-380):
uppercase the entry at index i, and if it is now "CNAME", swap it with the
entry at index 0. -/
def overrideStep (arr : List String) (i : Nat) : List String :=
  let arr1 := arr.set i (toUpperStr (arr.getD i ""))
  if arr1.getD i "" = "CNAME" then
    let tmp := arr1.getD 0 ""
    (arr1.set 0 (arr1.getD i "")).set i tmp
  else arr1

/-- The record-type normalization of dnsArgs.OverrideConfig
(dns.go:368-383): when the caller supplied record types, uppercase each and
hoist CNAME to the front; otherwise default to ["A"]. -/
def overrideConfigRecordTypes (dRecordTypes : List String) : List String :=
  if dRecordTypes = [] then ["A"]
  else (List.range dRecordTypes.length).foldl overrideStep dRecordTypes

/-- The events the select loop of processDNSAnswers (dns.go:254-303) can
wake on: the done channel closing, the 5-second ticker firing, a liveness
pulse on activeChan, or a value arriving on the answers channel. -/
inductive QEvent
  | done
  | tick
  | activePulse
  | answer (req : Option DNSRequest)
deriving DecidableEq, Repr

/-- The local state of processDNSAnswers: the `first` flag (true until the
first value arrives on the answers channel), the `active` flag, and the
count `i` of answers received. -/
structure QState where
  first : Bool
  active : Bool
  i : Nat
deriving DecidableEq, Repr

/-- Initial state of processDNSAnswers (dns.go:247-248): first = true,
active = true, i = 0. -/
def qInit : QState := { first := true, active := true, i := 0 }

/-- One iteration of the select loop of processDNSAnswers
(dns.go:255-302).  `none` means the function returns; `some s` means the
loop continues with state s.  On done: return.  On a tick: if `first`,
continue unchanged; else if `active`, clear it and continue; else return.
On a liveness pulse: set `active`.  On an answer (nil or not): increment
i, set `active`, clear `first`.  (The printing of non-nil answers is
output formatting only and has no effect on the state.) -/
def processDNSAnswersStep (s : QState) : QEvent → Option QState
  | QEvent.done => Option.none
  | QEvent.tick =>
    if s.first then Option.some s
    else if s.active then Option.some { s with active := false }
    else Option.none
  | QEvent.activePulse => Option.some { s with active := true }
  | QEvent.answer _ => Option.some { first := false, active := true, i := s.i + 1 }

/-- Whether the processDNSAnswers loop is still blocked in its select
(running, with the current state) or has returned / fallen out of the
`i < l` for-loop condition (exited). -/
inductive AnswersOutcome
  | exited
  | running (s : QState)
deriving DecidableEq, Repr

/-- Run processDNSAnswers over a sequence of wake-up events.  Before each
select, the for-loop condition `i < l` (l = len(cfg.ProvidedNames),
dns.go:253-254) is checked; when it fails the loop exits. -/
def processDNSAnswersRun (l : Nat) (s : QState) : List QEvent → AnswersOutcome
  | [] => if l ≤ s.i then AnswersOutcome.exited else AnswersOutcome.running s
  | e :: es =>
    if l ≤ s.i then AnswersOutcome.exited
    else match processDNSAnswersStep s e with
      | Option.none => AnswersOutcome.exited
      | Option.some s2 => processDNSAnswersRun l s2 es

/-- Cancellation structure of performResolutions (dns.go:165-202).  The
`cancel` of the run's shared context is invoked in exactly one place: the
name-dispatch goroutine's `case <-done` branch (dns.go:191-193), taken
when the done channel is observed closed while names remain to dispatch.
`doneAt = some k` means done first becomes observable to that goroutine
before its k-th (0-based) iteration; `none` means the goroutine never
observes done.  performResolutions itself returns after processDNSAnswers
without deferring or calling cancel. -/
def producerCancels (numNames : Nat) (doneAt : Option Nat) : Bool :=
  match doneAt with
  | Option.some k => decide (k < numNames)
  | Option.none => false

/-- The WhoisXML plugin's rate limit, in seconds, as set by NewWhoisXML
(whoisxml.go:65): RateLimit = 10 * time.Second. -/
def whoisXMLRateLimit : Nat := 10

/-- A reverse-whois request arriving on WhoisRequestChan, in logical time
(seconds): `gap` is the delay between the previous loop state and this
request's arrival, `domain` the requested domain, and `dur` how long the
executeWhoisQuery call takes. -/
structure WhoisEvent where
  gap : Nat
  domain : String
  dur : Nat
deriving DecidableEq, Repr

/-- The state of WhoisXML.processRequests: the current clock value, the
`last` timestamp, and the log of executed reverse-whois queries as
(start time, domain) pairs, in execution order. -/
structure WXState where
  now : Nat
  last : Nat
  log : List (Nat × String)
deriving DecidableEq, Repr

/-- Initial state of WhoisXML.processRequests (whoisxml.go:89):
last = time.Now().Truncate(10 * time.Minute), i.e. the clock rounded down
to a multiple of 600 seconds. -/
def wxInit (start : Nat) : WXState :=
  { now := start, last := start - start % 600, log := [] }

/-- One iteration of the WhoisXML.processRequests loop for a whois request
(whoisxml.go:96-104): if the domain is in scope, sleep the full RateLimit
whenever less than RateLimit has elapsed since `last`, set `last`, run
executeWhoisQuery, and set `last` again; out-of-scope requests are
discarded.  (The AddrRequestChan / ASNRequestChan cases do nothing.) -/
def wxStep (inScope : String → Bool) (s : WXState) (ev : WhoisEvent) : WXState :=
  let arrival := s.now + ev.gap
  if inScope ev.domain then
    let start := if arrival - s.last < whoisXMLRateLimit
                 then arrival + whoisXMLRateLimit else arrival
    let fin := start + ev.dur
    { now := fin, last := fin, log := s.log ++ [(start, ev.domain)] }
  else
    { now := arrival, last := s.last, log := s.log }

/-- Run WhoisXML.processRequests over a sequence of incoming requests,
starting from the initial state at clock value `start`. -/
def wxRun (inScope : String → Bool) (start : Nat) (evs : List WhoisEvent) : WXState :=
  evs.foldl (wxStep inScope) (wxInit start)

/-- WhoisXML.getReverseWhoisURL (whoisxml.go:154-157): formats a constant
string; the domain parameter is never used. -/
def getReverseWhoisURL (domain : String) : String :=
  let format := "https://reverse-whois-api.whoisxmlapi.com/api/v2"
  format

/-- A resolver pool whose scope derivation rejects every name: every name
maps to the empty root domain. -/
def poolNull : Pool :=
  { subdomainToDomain := fun _ => ""
    getWildcardType := fun _ => WildcardType.none
    resolve := fun _ _ => Except.error ()
    matchesWildcard := fun _ => false }

/-- A resolver pool that derives the root domain example.com for every
name but whose Resolve always fails. -/
def poolErr : Pool :=
  { subdomainToDomain := fun _ => "example.com"
    getWildcardType := fun _ => WildcardType.none
    resolve := fun _ _ => Except.error ()
    matchesWildcard := fun _ => false }

/-- The CNAME record returned for www.example.com in the spec's scenario. -/
def cdnAnswer : DNSAnswer := { rrtype := 5, data := "cdn.example.com" }

/-- An A record, available for any name under the scenario pool. -/
def aAnswer : DNSAnswer := { rrtype := 1, data := "10.0.0.1" }

/-- The spec's scenario pool: every name is under example.com, resolves a
CNAME to cdn.example.com, and would also resolve an A record if asked. -/
def poolCname : Pool :=
  { subdomainToDomain := fun _ => "example.com"
    getWildcardType := fun _ => WildcardType.none
    resolve := fun _ t =>
      if t = "CNAME" then Except.ok [cdnAnswer] else Except.ok [aAnswer]
    matchesWildcard := fun _ => false }

/-- A config with no blacklist whose record types are what
dnsArgs.OverrideConfig produces from the caller-supplied list
[A, CNAME]. -/
def cfgAC : Config :=
  { blacklisted := fun _ => false
    recordTypes := overrideConfigRecordTypes ["A", "CNAME"]
    providedNames := [] }

/-- A config with no blacklist and the default record types. -/
def cfgNull : Config :=
  { blacklisted := fun _ => false
    recordTypes := ["A"]
    providedNames := [] }

/-- Helper: every branch of processDNSRequest releases the semaphore once
and sends exactly one value on the answer channel. -/
theorem processDNSRequest_released_one_send (pool : Pool) (cfg : Config)
    (req : Option DNSRequest) :
    (processDNSRequest pool cfg req).released = 1 ∧
    (processDNSRequest pool cfg req).sends.length = 1 := by
  rcases req with _ | r
  · exact ⟨rfl, rfl⟩
  · simp only [processDNSRequest]
    split
    · exact ⟨rfl, rfl⟩
    · split
      · exact ⟨rfl, rfl⟩
      · split
        · exact ⟨rfl, rfl⟩
        · split
          · exact ⟨rfl, rfl⟩
          · exact ⟨rfl, rfl⟩

/-- C10: WhoisXML.getReverseWhoisURL returns the constant URL
"https://reverse-whois-api.whoisxmlapi.com/api/v2" for every input domain;
the domain argument has no influence on the result. -/
theorem claim10_constant_url :
    ∀ d1 d2 : String,
      getReverseWhoisURL d1 = "https://reverse-whois-api.whoisxmlapi.com/api/v2" ∧
      getReverseWhoisURL d1 = getReverseWhoisURL d2 := by
  intro d1 d2
  exact ⟨rfl, rfl⟩

/-- C2: for every admitted CandidateName — whatever the pool, the config
and the request — every exit path of processDNSRequest releases the
admission semaphore exactly once and pushes exactly one value (a request
or a nil marker) onto the answer channel; the consumer increments its
received count by exactly one per pushed value, so terminal signals
received equal admissions for any list of dispatched names. -/
theorem claim2_exactly_one_terminal_signal :
    ∀ (pool : Pool) (cfg : Config) (req : Option DNSRequest),
      (processDNSRequest pool cfg req).released = 1 ∧
      (processDNSRequest pool cfg req).sends.length = 1 ∧
      (∀ (s : QState) (r : Option DNSRequest),
        processDNSAnswersStep s (QEvent.answer r)
          = Option.some { first := false, active := true, i := s.i + 1 }) ∧
      (∀ nms : List String,
        (nms.map fun nm => (dispatchName pool cfg nm).2.sends.length).sum
          = nms.length) := by
  intro pool cfg req
  refine ⟨(processDNSRequest_released_one_send pool cfg req).1,
          (processDNSRequest_released_one_send pool cfg req).2,
          fun s r => rfl, ?_⟩
  intro nms
  induction nms with
  | nil => rfl
  | cons nm rest ih =>
    simp only [List.map_cons, List.sum_cons, List.length_cons, dispatchName] at ih ⊢
    rw [(processDNSRequest_released_one_send pool cfg
          (Option.some { name := nm, domain := "", records := [] })).2, ih]
    omega

/-- C1 counterexample: the grace period is not limited to the very first
poll tick.  From the initial state, after four consecutive ticks with no
answer yet received, processDNSAnswers is still polling and the active
flag is still set: the second tick (a later tick with the active flag set)
did not clear the flag, and no tick concluded the run drained — under the
claimed behaviour the flag would be cleared on the second tick and the run
would stop on the third. -/
theorem claim1_counterexample :
    processDNSAnswersRun 5 qInit
        [QEvent.tick, QEvent.tick, QEvent.tick, QEvent.tick]
      = AnswersOutcome.running { first := true, active := true, i := 0 } := by
  decide

/-- C1 amended: the grace period lasts until the first terminal signal is
received, not just the first tick: while `first` is still set every tick
leaves the state unchanged.  Once an answer has arrived, a tick with the
active flag set clears it and continues, and a tick with it already clear
stops the run; hence after a burst of 10 completions (with 20 names
expected) followed by silence, one trailing tick leaves the loop running
and a second trailing tick ends it — it stops after exactly two idle poll
intervals, not one, not three. -/
theorem claim1_two_idle_intervals :
    ∀ (a : Bool) (i : Nat),
      processDNSAnswersStep { first := true, active := a, i := i } QEvent.tick
        = Option.some { first := true, active := a, i := i } ∧
      processDNSAnswersStep { first := false, active := true, i := i } QEvent.tick
        = Option.some { first := false, active := false, i := i } ∧
      processDNSAnswersStep { first := false, active := false, i := i } QEvent.tick
        = Option.none ∧
      processDNSAnswersRun 20 qInit
          (List.replicate 10 (QEvent.answer Option.none) ++ [QEvent.tick])
        = AnswersOutcome.running { first := false, active := false, i := 10 } ∧
      processDNSAnswersRun 20 qInit
          (List.replicate 10 (QEvent.answer Option.none)
            ++ [QEvent.tick, QEvent.tick])
        = AnswersOutcome.exited := by
  intro a i
  refine ⟨rfl, rfl, rfl, by decide, by decide⟩

/-- C6 counterexample: a run that ends through the Quiescence Detector
concluding drain never cancels the shared context.  With two provided
names, one nil terminal signal followed by two idle ticks makes
processDNSAnswers return (the drain path), while the producer goroutine —
which never observed the done channel — is the only caller of cancel and
has not called it. -/
theorem claim6_counterexample :
    processDNSAnswersRun 2 qInit
        [QEvent.answer Option.none, QEvent.tick, QEvent.tick]
      = AnswersOutcome.exited ∧
    producerCancels 2 Option.none = false := by
  decide

/-- C6 amended: the shared context is canceled in exactly one place — the
name-dispatch goroutine's done branch — and only when done is observed
while provided names remain to dispatch; a run whose names were all
dispatched before done closed, and in particular any run ending by
quiescence drain without the done channel closing, never cancels the
context. -/
theorem claim6_cancel_structure :
    ∀ (numNames : Nat) (doneAt : Option Nat),
      producerCancels numNames doneAt = true ↔
        ∃ k, doneAt = Option.some k ∧ k < numNames := by
  intro numNames doneAt
  cases doneAt with
  | none => simp [producerCancels]
  | some k => simp [producerCancels]

/-- C8 counterexample: an empty candidate name is not dropped before
AdmissionTicket acquisition.  performResolutions acquires the admission
semaphore for every provided name, the empty name included, before the
per-name worker starts: the acquisition count for the empty name is 1, not
0; the worker then drops it and pushes the nil terminal signal. -/
theorem claim8_counterexample :
    (dispatchName poolNull cfgNull "").1 = 1 ∧
    ¬(dispatchName poolNull cfgNull "").1 = 0 ∧
    (dispatchName poolNull cfgNull "").2.sends = [Option.none] := by
  decide

/-- C8 amended: an empty candidate name acquires an AdmissionTicket like
every other provided name (the semaphore is acquired before the per-name
worker is spawned); the worker then drops it at its very first check —
before scope derivation or any query — releasing the ticket and still
pushing exactly one nil terminal signal, so the Quiescence Detector's
count of terminal signals stays consistent with the admission count. -/
theorem claim8_ticket_then_drop :
    ∀ (pool : Pool) (cfg : Config),
      dispatchName pool cfg ""
        = (1, { sends := [Option.none], resolveCalls := [], released := 1 }) := by
  intro pool cfg
  rfl

/-- C3: whenever the derived root domain of a candidate is empty (out of
scope), or the name is blacklisted, or the pool classifies the request's
domain as a Dynamic wildcard, processDNSRequest pushes the nil terminal
marker and its Resolve-call trace is empty — no query is ever issued to
the resolver pool. -/
theorem claim3_early_reject_no_resolve :
    ∀ (pool : Pool) (cfg : Config) (r : DNSRequest),
      (pool.subdomainToDomain r.name = "" ∨
       cfg.blacklisted r.name = true ∨
       pool.getWildcardType { r with domain := pool.subdomainToDomain r.name }
         = WildcardType.dynamic) →
      processDNSRequest pool cfg (Option.some r)
        = { sends := [Option.none], resolveCalls := [], released := 1 } := by
  intro pool cfg r h
  simp only [processDNSRequest]
  split
  · rfl
  · split
    · rfl
    · split
      · rfl
      · rename_i hne hd hbw
        exfalso
        apply hbw
        rcases h with h | h | h
        · exact absurd h hd
        · exact Or.inl (by simp [h])
        · exact Or.inr h

/-- C3 witness: a concrete candidate whose derived domain is empty is
suppressed with no Resolve call. -/
theorem claim3_early_reject_witness :
    processDNSRequest poolNull cfgNull
        (Option.some { name := "x.example.com", domain := "", records := [] })
      = { sends := [Option.none], resolveCalls := [], released := 1 } :=
  claim3_early_reject_no_resolve poolNull cfgNull
    { name := "x.example.com", domain := "", records := [] } (Or.inl rfl)

/-- The resolution result the spec's CNAME scenario expects for
www.example.com: root domain example.com and only the CNAME record. -/
def wwwResolved : DNSRequest :=
  { name := "www.example.com", domain := "example.com", records := [cdnAnswer] }

/-- C4: in the record-type query loop, once the types before CNAME (none
of which is itself CNAME) have been handled, a successful non-empty CNAME
answer makes the loop break: the Resolve-call trace stops at "CNAME" and
the types after it are never queried.  In the spec's scenario — caller
record types [A, CNAME] (which OverrideConfig turns into [CNAME, A]) and
www.example.com resolving a CNAME to cdn.example.com — the result carries
only the CNAME answer and the Resolve trace is exactly ["CNAME"]: the A
query is never issued. -/
theorem claim4_cname_short_circuit :
    (∀ (pool : Pool) (nm : String) (pre post : List String)
        (acc : List DNSAnswer) (calls : List String) (a : List DNSAnswer),
      "CNAME" ∉ pre →
      pool.resolve nm "CNAME" = Except.ok a → a ≠ [] →
      (queryLoop pool nm (pre ++ "CNAME" :: post) acc calls).2
        = calls ++ pre ++ ["CNAME"]) ∧
    processDNSRequest poolCname cfgAC
        (Option.some { name := "www.example.com", domain := "", records := [] })
      = { sends := [Option.some wwwResolved],
          resolveCalls := ["CNAME"], released := 1 } := by
  constructor
  · intro pool nm pre post acc calls a hpre hres hne
    induction pre generalizing acc calls with
    | nil =>
      simp [queryLoop, hres, hne]
    | cons t pre ih =>
      have ht : t ≠ "CNAME" := fun h => hpre (h ▸ List.mem_cons_self t pre)
      have hpre2 : "CNAME" ∉ pre := fun h => hpre (List.mem_cons_of_mem t h)
      simp only [List.cons_append, queryLoop, List.append_eq]
      rw [if_neg (fun hc => ht hc.1)]
      rw [ih _ _ hpre2]
      simp
  · decide

/-- C4 witness: with pre = [TXT] and post = [A], a non-empty CNAME answer
stops the trace at CNAME, so A is never queried. -/
theorem claim4_short_circuit_witness :
    (queryLoop poolCname "n" (["TXT"] ++ "CNAME" :: ["A"]) [] []).2
      = [] ++ ["TXT"] ++ ["CNAME"] :=
  claim4_cname_short_circuit.1 poolCname "n" ["TXT"] ["A"] [] [] [cdnAnswer]
    (by decide) rfl (by decide)

/-- C5 counterexample: the record types are not queried in the order the
caller configured.  With caller-supplied record types [A, CNAME],
dnsArgs.OverrideConfig produces [CNAME, A]; against a pool whose Resolve
always fails (so the CNAME short-circuit never fires), the Resolve calls
for sub.example.com are issued in the order [CNAME, A], which differs from
the caller's order [A, CNAME]. -/
theorem claim5_counterexample :
    overrideConfigRecordTypes ["A", "CNAME"] = ["CNAME", "A"] ∧
    (processDNSRequest poolErr cfgAC
        (Option.some { name := "sub.example.com", domain := "", records := [] })).resolveCalls
      = ["CNAME", "A"] ∧
    (["CNAME", "A"] : List String) ≠ ["A", "CNAME"] := by
  decide

/-- C5 amended: within one candidate's resolution, Resolve is issued in
exactly the order of cfg.RecordTypes — the trace of resolved types is
always an order-preserving prefix of that list, and when the list contains
no CNAME every configured type is queried in exactly that order.  The
order of cfg.RecordTypes itself is not the caller's: OverrideConfig
uppercases the caller's types and hoists CNAME to the front, mapping
[A, CNAME] to [CNAME, A], and defaults to [A] when no type was given. -/
theorem claim5_query_order :
    (∀ (pool : Pool) (nm : String) (ts : List String)
        (acc : List DNSAnswer) (calls : List String),
      ∃ k, (queryLoop pool nm ts acc calls).2 = calls ++ ts.take k) ∧
    (∀ (pool : Pool) (nm : String) (ts : List String)
        (acc : List DNSAnswer) (calls : List String),
      "CNAME" ∉ ts → (queryLoop pool nm ts acc calls).2 = calls ++ ts) ∧
    overrideConfigRecordTypes ["A", "CNAME"] = ["CNAME", "A"] ∧
    overrideConfigRecordTypes [] = ["A"] := by
  refine ⟨?_, ?_, by decide, by decide⟩
  · intro pool nm ts
    induction ts with
    | nil =>
      intro acc calls
      exact ⟨0, by simp [queryLoop]⟩
    | cons t rest ih =>
      intro acc calls
      cases hres : pool.resolve nm t with
      | ok a =>
        simp only [queryLoop, hres]
        split
        · exact ⟨1, by simp⟩
        · obtain ⟨k, hk⟩ := ih (acc ++ a) (calls ++ [t])
          exact ⟨k + 1, by simp [hk]⟩
      | error e =>
        simp only [queryLoop, hres]
        split
        · exact ⟨1, by simp⟩
        · obtain ⟨k, hk⟩ := ih acc (calls ++ [t])
          exact ⟨k + 1, by simp [hk]⟩
  · intro pool nm ts
    induction ts with
    | nil =>
      intro acc calls _
      simp [queryLoop]
    | cons t rest ih =>
      intro acc calls hmem
      have ht : t ≠ "CNAME" := fun h => hmem (h ▸ List.mem_cons_self t rest)
      have hrest : "CNAME" ∉ rest := fun h => hmem (List.mem_cons_of_mem t h)
      simp only [queryLoop]
      rw [if_neg (fun hc => ht hc.1)]
      rw [ih _ (calls ++ [t]) hrest]
      simp

/-- C5 witness: with record types [A, TXT] (no CNAME) every type is
queried, in exactly the configured order. -/
theorem claim5_query_order_witness :
    (queryLoop poolErr "n" ["A", "TXT"] [] []).2 = [] ++ ["A", "TXT"] :=
  claim5_query_order.2.1 poolErr "n" ["A", "TXT"] [] [] (by decide)

/-- C7: a Resolve error for one record type is absorbed locally — the loop
continues with the next type and the accumulated answers unchanged
(except when the failing type is CNAME and earlier answers already make
the CNAME short-circuit fire, which ends the loop normally, not the run).
After the loop, a request whose accumulated answer list is empty or whose
answers match the domain's wildcard yields the nil (suppressed) terminal
signal; otherwise the full result — name, derived domain and all
accumulated records — is emitted.  In every case exactly one value is sent
and the semaphore is released, so no per-name failure can abort another
name's resolution or the run. -/
theorem claim7_failures_absorbed :
    (∀ (pool : Pool) (nm t : String) (rest : List String)
        (acc : List DNSAnswer) (calls : List String) (e : Unit),
      pool.resolve nm t = Except.error e →
      ¬(t = "CNAME" ∧ acc ≠ []) →
      queryLoop pool nm (t :: rest) acc calls
        = queryLoop pool nm rest acc (calls ++ [t])) ∧
    (∀ (pool : Pool) (cfg : Config) (r : DNSRequest),
      r.name ≠ "" →
      pool.subdomainToDomain r.name ≠ "" →
      cfg.blacklisted r.name = false →
      pool.getWildcardType { r with domain := pool.subdomainToDomain r.name }
        ≠ WildcardType.dynamic →
      ((queryLoop pool r.name cfg.recordTypes [] []).1 = [] ∨
          pool.matchesWildcard
            { r with domain := pool.subdomainToDomain r.name,
                     records := (queryLoop pool r.name cfg.recordTypes [] []).1 }
            = true →
        processDNSRequest pool cfg (Option.some r)
          = { sends := [Option.none],
              resolveCalls := (queryLoop pool r.name cfg.recordTypes [] []).2,
              released := 1 }) ∧
      ((queryLoop pool r.name cfg.recordTypes [] []).1 ≠ [] →
        pool.matchesWildcard
          { r with domain := pool.subdomainToDomain r.name,
                   records := (queryLoop pool r.name cfg.recordTypes [] []).1 }
          = false →
        processDNSRequest pool cfg (Option.some r)
          = { sends := [Option.some
                { r with domain := pool.subdomainToDomain r.name,
                         records := (queryLoop pool r.name cfg.recordTypes [] []).1 }],
              resolveCalls := (queryLoop pool r.name cfg.recordTypes [] []).2,
              released := 1 })) := by
  constructor
  · intro pool nm t rest acc calls e hres hnb
    simp only [queryLoop, hres]
    rw [if_neg hnb]
  · intro pool cfg r hn hd hb hw
    constructor
    · intro hsup
      simp only [processDNSRequest]
      rw [if_neg hn, if_neg hd, if_neg ?bw]
      case bw =>
        rintro (hbl | hdyn)
        · rw [hb] at hbl
          exact Bool.false_ne_true hbl
        · exact hw hdyn
      rw [if_pos ?sup]
      case sup =>
        rcases hsup with h | h
        · exact Or.inl h
        · exact Or.inr (by simpa using h)
    · intro hne hmw
      simp only [processDNSRequest]
      rw [if_neg hn, if_neg hd, if_neg ?bw2]
      case bw2 =>
        rintro (hbl | hdyn)
        · rw [hb] at hbl
          exact Bool.false_ne_true hbl
        · exact hw hdyn
      rw [if_neg ?nsup]
      case nsup =>
        rintro (h | h)
        · exact hne h
        · rw [hmw] at h
          exact Bool.false_ne_true h

/-- C7 witness: a name whose every Resolve call fails accumulates zero
answers and yields the nil suppressed terminal signal, the full loop
having still queried every type. -/
theorem claim7_failures_witness :
    processDNSRequest poolErr cfgAC
        (Option.some { name := "sub.example.com", domain := "", records := [] })
      = { sends := [Option.none], resolveCalls := ["CNAME", "A"], released := 1 } := by
  have h := (claim7_failures_absorbed.2 poolErr cfgAC
      { name := "sub.example.com", domain := "", records := [] }
      (by decide) (by decide) rfl (by decide)).1 (Or.inl (by decide))
  exact h.trans (by decide)

/-- Invariant of the WhoisXML.processRequests loop: the last-query
timestamp never exceeds the clock, every logged query was for an in-scope
domain, consecutive logged query start times are at least RateLimit apart,
and the most recent logged start time is at most `last`. -/
def wxInv (inScope : String → Bool) (s : WXState) : Prop :=
  s.last ≤ s.now ∧
  (s.log.all fun p => inScope p.2) = true ∧
  List.Chain' (fun p q => p.1 + whoisXMLRateLimit ≤ q.1) s.log ∧
  (match s.log.getLast? with
   | Option.none => True
   | Option.some p => p.1 ≤ s.last)

/-- One processRequests iteration preserves the rate-limit invariant. -/
theorem wxStep_inv (inScope : String → Bool) (s : WXState) (ev : WhoisEvent)
    (h : wxInv inScope s) : wxInv inScope (wxStep inScope s ev) := by
  obtain ⟨h1, h2, h3, h4⟩ := h
  cases hd : inScope ev.domain with
  | false =>
    simp only [wxStep, hd, Bool.false_eq_true, if_false]
    exact ⟨le_trans h1 (Nat.le_add_right _ _), h2, h3, h4⟩
  | true =>
    have harr : s.last ≤ s.now + ev.gap := le_trans h1 (Nat.le_add_right _ _)
    have hgap : s.last + whoisXMLRateLimit ≤
        (if s.now + ev.gap - s.last < whoisXMLRateLimit
         then s.now + ev.gap + whoisXMLRateLimit else s.now + ev.gap) := by
      split
      · omega
      · omega
    simp only [wxStep, hd, reduceIte, wxInv]
    refine ⟨Nat.le_refl _, ?_, ?_, ?_⟩
    · simp [h2, hd]
    · rw [List.chain'_append]
      refine ⟨h3, List.chain'_singleton _, ?_⟩
      intro x hx y hy
      simp only [List.head?_cons, Option.mem_def, Option.some.injEq] at hy
      rw [Option.mem_def] at hx
      rw [hx] at h4
      have h5 : x.1 ≤ s.last := h4
      rw [← hy]
      show x.1 + whoisXMLRateLimit ≤
        (if s.now + ev.gap - s.last < whoisXMLRateLimit
         then s.now + ev.gap + whoisXMLRateLimit else s.now + ev.gap)
      omega
    · simp

/-- The rate-limit invariant holds after any sequence of processRequests
iterations from an invariant state. -/
theorem wxFold_inv (inScope : String → Bool) :
    ∀ (evs : List WhoisEvent) (s : WXState), wxInv inScope s →
      wxInv inScope (evs.foldl (wxStep inScope) s) := by
  intro evs
  induction evs with
  | nil => intro s hs; exact hs
  | cons ev rest ih =>
    intro s hs
    exact ih _ (wxStep_inv inScope s ev hs)

/-- C9: the WhoisXML plugin rate-limits itself.  Over any sequence of
incoming reverse-whois requests, every query it actually executes is for a
domain the config places in scope, and the start times of consecutive
executed queries are at least the plugin's RateLimit apart — which
NewWhoisXML fixes at 10 seconds. -/
theorem claim9_whoisxml_rate_limit :
    ∀ (inScope : String → Bool) (start : Nat) (evs : List WhoisEvent),
      ((wxRun inScope start evs).log.all fun p => inScope p.2) = true ∧
      List.Chain' (fun p q => p.1 + whoisXMLRateLimit ≤ q.1)
        (wxRun inScope start evs).log ∧
      whoisXMLRateLimit = 10 := by
  intro inScope start evs
  have hinit : wxInv inScope (wxInit start) := by
    refine ⟨?_, rfl, List.chain'_nil, trivial⟩
    simp only [wxInit]
    omega
  have h := wxFold_inv inScope evs (wxInit start) hinit
  exact ⟨h.2.1, h.2.2.1, rfl⟩
